import Mathlib

/-!
Shallow embedding of the image-resizer core (`src/image resizer/js/app.js`).

The encoder primitive `canvas.toDataURL('image/jpeg', quality)` is modelled
as an abstract function `enc : ℚ → ℕ` returning the LENGTH of the produced
data-URL text at a given quality (the empty string is length 0).  Pixel
contents are out of scope; buffers are tracked by their geometry, exactly as
the spec treats them.  JS numbers arising here (qualities, targets, aspect
ratios) are modelled as `ℚ`; `parseInt` / `parseFloat` results are modelled
as `Option` values, `none` standing for `NaN`.
-/

namespace ImageResizerApp

/-- `Math.ceil((len * 0.75) / 1024)` from `compressToTargetSize`
(app.js lines 264 and 279): the size in KB the code reports for a data URL
of text length `len`.  In exact arithmetic this is `⌈3·len/4096⌉`. -/
def sizeKB (len : ℕ) : ℕ := (3 * len + 4095) / 4096

/-- Loop state of the binary search in `compressToTargetSize`
(app.js lines 258-275): `minQuality`, `maxQuality`, `quality`, and the best
result so far (`bestDataUrl` modelled by its length `bestLen`, the initial
`''` being length 0, together with `bestSize`; `bestQuality` records the
quality at which the best data URL was encoded). -/
structure SearchState where
  minQuality : ℚ
  maxQuality : ℚ
  quality : ℚ
  bestLen : ℕ
  bestSize : ℕ
  bestQuality : ℚ
deriving DecidableEq, Repr

/-- `let minQuality = 0.05, maxQuality = 1.0, quality = 0.95; bestDataUrl = '', bestSize = 0`
(app.js line 258-259). -/
def initSearch : SearchState :=
  { minQuality := 1/20, maxQuality := 1, quality := 19/20,
    bestLen := 0, bestSize := 0, bestQuality := 0 }

/-- One iteration of the loop body of `compressToTargetSize`
(app.js lines 263-274). -/
def searchStep (enc : ℚ → ℕ) (targetKB : ℚ) (s : SearchState) : SearchState :=
  let len := enc s.quality
  let kb := sizeKB len
  if (kb : ℚ) ≤ targetKB then
    { minQuality := s.quality, maxQuality := s.maxQuality,
      quality := (s.quality + s.maxQuality) / 2,
      bestLen := len, bestSize := kb, bestQuality := s.quality }
  else
    { minQuality := s.minQuality, maxQuality := s.quality,
      quality := (s.quality + s.minQuality) / 2,
      bestLen := s.bestLen, bestSize := s.bestSize, bestQuality := s.bestQuality }

/-- The search state after `n` iterations of the loop of
`compressToTargetSize`; the loop at app.js line 262 runs it `10` times. -/
def runSearch (enc : ℚ → ℕ) (targetKB : ℚ) : ℕ → SearchState
  | 0 => initSearch
  | n + 1 => searchStep enc targetKB (runSearch enc targetKB n)

/-- Result of one encode: the data-URL text length, the KB size the code
computes for it, and the quality parameter that was passed to the encoder. -/
structure EncodeResult where
  len : ℕ
  sizeKB : ℕ
  quality : ℚ
deriving DecidableEq, Repr

/-- `compressToTargetSize` (app.js lines 257-289): run the 10-iteration
binary search; if `bestDataUrl` is still empty (`if (!bestDataUrl)`,
line 277), re-encode once at the floor quality 0.05. -/
def compressToTargetSize (enc : ℚ → ℕ) (targetKB : ℚ) : EncodeResult :=
  let s := runSearch enc targetKB 10
  if s.bestLen = 0 then
    { len := enc (1/20), sizeKB := sizeKB (enc (1/20)), quality := 1/20 }
  else
    { len := s.bestLen, sizeKB := s.bestSize, quality := s.bestQuality }

/-- Number of `toDataURL` calls `compressToTargetSize` performs: one per
loop iteration (10), plus one more in the `if (!bestDataUrl)` fallback
(app.js line 278) when the loop kept no result. -/
def compressEncodeCount (enc : ℚ → ℕ) (targetKB : ℚ) : ℕ :=
  if (runSearch enc targetKB 10).bestLen = 0 then 11 else 10

/-- A single fixed-quality encode, `canvas.toDataURL('image/jpeg', q)`. -/
def singleEncode (enc : ℚ → ℕ) (q : ℚ) : EncodeResult :=
  { len := enc q, sizeKB := sizeKB (enc q), quality := q }

/-- The unit selector read by `resizeImage` (app.js line 206). -/
inductive SizeUnit
  | KB
  | MB
deriving DecidableEq, Repr

/-- `if (unit === 'MB') targetSize *= 1024` (app.js line 223), applied to a
`parseFloat` result (`none` = `NaN`; `NaN * 1024` is `NaN`). -/
def normalizeTarget (v : Option ℚ) (u : SizeUnit) : Option ℚ :=
  v.map (fun t => match u with | .MB => t * 1024 | .KB => t)

/-- `generateOptimizedImage` (app.js lines 249-255):
`if (targetSize && targetSize > 0)` run the search, else a single encode at
quality 0.9.  The JS guard is truthiness (`NaN` and `0` are falsy) together
with `> 0`, so the search branch is taken exactly for a numeric positive
target.  Also returns the number of encode calls performed. -/
def generateOptimizedImage (enc : ℚ → ℕ) (targetSize : Option ℚ) : EncodeResult × ℕ :=
  match targetSize with
  | some t =>
      if 0 < t then (compressToTargetSize enc t, compressEncodeCount enc t)
      else (singleEncode enc (9/10), 1)
  | none => (singleEncode enc (9/10), 1)

/-- Length of the data-URL text `toDataURL('image/jpeg', _)` produces for an
image whose JPEG encoding is `n` binary bytes: the 23-character prefix
`data:image/jpeg;base64,` plus the base64 payload of `4·⌈n/3⌉` characters. -/
def dataUrlLength (n : ℕ) : ℕ := 23 + 4 * ((n + 2) / 3)

/-- The spec's stated `EncodeResult` invariant value:
`sizeKB == ceil(bytes.length / 1024)` for `n` binary bytes (spec §3).
Written from the spec's words, to compare against what the code computes. -/
def specSizeKB (n : ℕ) : ℕ := (n + 1023) / 1024

/-- Abstract error kinds of the spec's taxonomy (§7). -/
inductive AppError
  | noImageLoaded
  | invalidInput
deriving DecidableEq, Repr

/-- A rendered raster buffer, tracked by its geometry.  Dimensions are `ℤ`
because `resizeImage` copies whatever `parseInt` produced (possibly
negative) straight into the canvas dimensions. -/
structure RenderedBuffer where
  w : ℤ
  h : ℤ
deriving DecidableEq, Repr

/-- The retained state of the `ImageResizer` object together with the DOM
fields the operations read and write: `loaded` models
`originalImage.src` being non-empty, `imgW`/`imgH` the loaded image's
dimensions, `rotationAngle` and `aspectRatio` the instance fields, and
`widthInput`/`heightInput` the `parseInt` reading of the two dimension
fields (`none` = not parseable).  `canvasW`/`canvasH` are the canvas
dimensions. -/
structure AppState where
  loaded : Bool
  imgW : ℕ
  imgH : ℕ
  rotationAngle : ℕ
  aspectRatio : ℚ
  widthInput : Option ℤ
  heightInput : Option ℤ
  canvasW : ℤ
  canvasH : ℤ
deriving DecidableEq, Repr

/-- Fresh `ImageResizer` (constructor, app.js lines 7-10): no image,
`rotationAngle = 0`, `aspectRatio = 1`; the canvas element defaults to
300×150. -/
def initialState : AppState :=
  { loaded := false, imgW := 0, imgH := 0, rotationAngle := 0, aspectRatio := 1,
    widthInput := none, heightInput := none, canvasW := 300, canvasH := 150 }

/-- Successful image load: `originalImage.onload` runs `updateInputs`
(app.js lines 180-185), filling the dimension fields, recomputing
`aspectRatio` and resetting `rotationAngle` to 0. -/
def loadImage (s : AppState) (w h : ℕ) : AppState :=
  { s with
    loaded := true, imgW := w, imgH := h,
    widthInput := some (w : ℤ), heightInput := some (h : ℤ),
    aspectRatio := (w : ℚ) / (h : ℚ), rotationAngle := 0 }

/-- JS truthiness of a `parseInt` result: `NaN` and `0` are falsy, every
other number — negative ones included — is truthy. -/
def truthyInt : Option ℤ → Bool
  | none => false
  | some x => x != 0

/-- `resizeImage` (app.js lines 197-247): precondition checks on
`originalImage.src` and `!width || !height`, then set the canvas to
`(width, height)`, draw the source scaled into that box, and encode via
`generateOptimizedImage` with the unit-normalized target. -/
def resizeImage (enc : ℚ → ℕ) (targetInput : Option ℚ) (u : SizeUnit)
    (s : AppState) : AppState × Except AppError (RenderedBuffer × EncodeResult) :=
  if s.loaded = false then (s, .error .noImageLoaded)
  else if (truthyInt s.widthInput && truthyInt s.heightInput) = false then
    (s, .error .invalidInput)
  else
    let width := s.widthInput.getD 0
    let height := s.heightInput.getD 0
    let targetKB := normalizeTarget targetInput u
    let res := (generateOptimizedImage enc targetKB).1
    ({ s with canvasW := width, canvasH := height }, .ok (⟨width, height⟩, res))

/-- `rotateImage` (app.js lines 291-337): precondition check, then
`rotationAngle = (rotationAngle + 90) % 360`; output dimensions come from
the ORIGINAL image, swapped iff the new angle is not a multiple of 180;
the dimension fields and `aspectRatio` are updated to the output. -/
def rotateImage (s : AppState) : AppState × Except AppError RenderedBuffer :=
  if s.loaded = false then (s, .error .noImageLoaded)
  else
    let angle := (s.rotationAngle + 90) % 360
    let width := if angle % 180 = 0 then s.imgW else s.imgH
    let height := if angle % 180 = 0 then s.imgH else s.imgW
    ({ s with
       rotationAngle := angle,
       canvasW := (width : ℤ), canvasH := (height : ℤ),
       widthInput := some (width : ℤ), heightInput := some (height : ℤ),
       aspectRatio := (width : ℚ) / (height : ℚ) },
     .ok ⟨(width : ℤ), (height : ℤ)⟩)

/-- `cropSquare` (app.js lines 339-377): precondition check, then
`size = min(width, height)`, centered source offsets `sx`, `sy` (fractional
when the difference is odd, hence `ℚ`), canvas set to `size × size`. -/
def cropSquare (s : AppState) : AppState × Except AppError (RenderedBuffer × ℚ × ℚ) :=
  if s.loaded = false then (s, .error .noImageLoaded)
  else
    let size := min s.imgW s.imgH
    let sx : ℚ := ((s.imgW : ℚ) - (size : ℚ)) / 2
    let sy : ℚ := ((s.imgH : ℚ) - (size : ℚ)) / 2
    ({ s with
       canvasW := (size : ℤ), canvasH := (size : ℤ),
       widthInput := some (size : ℤ), heightInput := some (size : ℤ),
       aspectRatio := 1 },
     .ok (⟨(size : ℤ), (size : ℤ)⟩, sx, sy))

/-- `n` consecutive `rotateImage` calls (retained-state part). -/
def rotateN (n : ℕ) (s : AppState) : AppState :=
  match n with
  | 0 => s
  | n + 1 => (rotateImage (rotateN n s)).1

end ImageResizerApp

namespace ImageResizerApp

theorem sizeKB_le_sizeKB {a b : ℕ} (h : a ≤ b) : sizeKB a ≤ sizeKB b :=
  Nat.div_le_div_right (by omega)

theorem searchStep_bounds (enc : ℚ → ℕ) (t : ℚ) {s : SearchState}
    (h1 : 1/20 ≤ s.minQuality) (h2 : s.minQuality ≤ s.quality)
    (h3 : s.quality ≤ s.maxQuality) (h4 : s.maxQuality ≤ 1) :
    1/20 ≤ (searchStep enc t s).minQuality ∧
    (searchStep enc t s).minQuality ≤ (searchStep enc t s).quality ∧
    (searchStep enc t s).quality ≤ (searchStep enc t s).maxQuality ∧
    (searchStep enc t s).maxQuality ≤ 1 := by
  unfold searchStep
  dsimp only
  split
  · exact ⟨by linarith, by linarith, by linarith, h4⟩
  · exact ⟨h1, by linarith, by linarith, by linarith⟩

theorem runSearch_bounds_aux (enc : ℚ → ℕ) (t : ℚ) :
    ∀ i, 1/20 ≤ (runSearch enc t i).minQuality ∧
      (runSearch enc t i).minQuality ≤ (runSearch enc t i).quality ∧
      (runSearch enc t i).quality ≤ (runSearch enc t i).maxQuality ∧
      (runSearch enc t i).maxQuality ≤ 1
  | 0 => by norm_num [runSearch, initSearch]
  | i + 1 => by
    obtain ⟨h1, h2, h3, h4⟩ := runSearch_bounds_aux enc t i
    exact searchStep_bounds enc t h1 h2 h3 h4

theorem searchStep_min_le (enc : ℚ → ℕ) (t : ℚ) {s : SearchState}
    (h2 : s.minQuality ≤ s.quality) :
    s.minQuality ≤ (searchStep enc t s).minQuality := by
  unfold searchStep
  dsimp only
  split
  · exact h2
  · exact le_rfl

theorem searchStep_max_ge (enc : ℚ → ℕ) (t : ℚ) {s : SearchState}
    (h3 : s.quality ≤ s.maxQuality) :
    (searchStep enc t s).maxQuality ≤ s.maxQuality := by
  unfold searchStep
  dsimp only
  split
  · exact le_rfl
  · exact h3

theorem runSearch_bestSize_le (enc : ℚ → ℕ) (t : ℚ) :
    ∀ n, (runSearch enc t n).bestLen ≠ 0 → ((runSearch enc t n).bestSize : ℚ) ≤ t
  | 0 => fun h => absurd rfl h
  | n + 1 => by
    intro h
    have ih := runSearch_bestSize_le enc t n
    revert h
    show (searchStep enc t (runSearch enc t n)).bestLen ≠ 0 →
      ((searchStep enc t (runSearch enc t n)).bestSize : ℚ) ≤ t
    unfold searchStep
    dsimp only
    split
    · next hle => exact fun _ => hle
    · exact ih

theorem runSearch_bestLen_zero (enc : ℚ → ℕ) (t : ℚ)
    (hfail : ∀ i, ¬ ((sizeKB (enc ((runSearch enc t i).quality)) : ℚ) ≤ t)) :
    ∀ n, (runSearch enc t n).bestLen = 0
  | 0 => rfl
  | n + 1 => by
    have ih := runSearch_bestLen_zero enc t hfail n
    show (searchStep enc t (runSearch enc t n)).bestLen = 0
    unfold searchStep
    dsimp only
    rw [if_neg (hfail n)]
    exact ih

theorem runSearch_bestLen_ne_zero_iff (enc : ℚ → ℕ) (t : ℚ) (hpos : ∀ q : ℚ, 0 < enc q) :
    ∀ n, (runSearch enc t n).bestLen ≠ 0 ↔
      ∃ i, i < n ∧ ((sizeKB (enc ((runSearch enc t i).quality)) : ℚ) ≤ t)
  | 0 => by simp [runSearch, initSearch]
  | n + 1 => by
    have ih := runSearch_bestLen_ne_zero_iff enc t hpos n
    by_cases h : ((sizeKB (enc ((runSearch enc t n).quality)) : ℚ) ≤ t)
    · constructor
      · intro _
        exact ⟨n, Nat.lt_succ_self n, h⟩
      · intro _
        show (searchStep enc t (runSearch enc t n)).bestLen ≠ 0
        unfold searchStep
        dsimp only
        rw [if_pos h]
        exact Nat.pos_iff_ne_zero.mp (hpos _)
    · have hpres : (runSearch enc t (n + 1)).bestLen = (runSearch enc t n).bestLen := by
        show (searchStep enc t (runSearch enc t n)).bestLen = _
        unfold searchStep
        dsimp only
        rw [if_neg h]
      rw [hpres, ih]
      constructor
      · rintro ⟨i, hi, hs⟩
        exact ⟨i, Nat.lt_succ_of_lt hi, hs⟩
      · rintro ⟨i, hi, hs⟩
        rcases Nat.lt_succ_iff_lt_or_eq.mp hi with hi' | rfl
        · exact ⟨i, hi', hs⟩
        · exact absurd hs h

end ImageResizerApp

namespace ImageResizerApp

/-- C1: for every rendered buffer (abstract encoder `enc`, monotonically
non-decreasing in quality) and target, whenever some quality in
[0.05, 1.0] encodes to at most `targetKB`, `compressToTargetSize` returns
a result with `sizeKB ≤ targetKB`; when no quality in that range achieves
the bound, it returns exactly the quality-0.05 floor encoding (which may
exceed the target).  The function is total, so an unreachable target never
raises an error. -/
theorem compress_meets_reachable_target (enc : ℚ → ℕ) (t : ℚ)
    (hmono : ∀ a b : ℚ, a ≤ b → enc a ≤ enc b) :
    ((∃ q : ℚ, 1/20 ≤ q ∧ q ≤ 1 ∧ ((sizeKB (enc q) : ℚ) ≤ t)) →
      ((compressToTargetSize enc t).sizeKB : ℚ) ≤ t) ∧
    ((∀ q : ℚ, 1/20 ≤ q → q ≤ 1 → t < (sizeKB (enc q) : ℚ)) →
      compressToTargetSize enc t =
        { len := enc (1/20), sizeKB := sizeKB (enc (1/20)), quality := 1/20 }) := by
  constructor
  · rintro ⟨q, hq1, hq2, hq3⟩
    unfold compressToTargetSize
    dsimp only
    split
    · calc ((sizeKB (enc (1/20)) : ℕ) : ℚ)
          ≤ ((sizeKB (enc q) : ℕ) : ℚ) := by
            exact_mod_cast sizeKB_le_sizeKB (hmono _ _ hq1)
        _ ≤ t := hq3
    · next hne => exact runSearch_bestSize_le enc t 10 hne
  · intro hall
    have hfail : ∀ i, ¬ ((sizeKB (enc ((runSearch enc t i).quality)) : ℚ) ≤ t) := by
      intro i
      obtain ⟨h1, h2, h3, h4⟩ := runSearch_bounds_aux enc t i
      exact not_le.mpr (hall _ (le_trans h1 h2) (le_trans h3 h4))
    unfold compressToTargetSize
    dsimp only
    rw [if_pos (runSearch_bestLen_zero enc t hfail 10)]

/-- Witness for C1: a constant encoder of data-URL length 100 reports 1 KB
at every quality, so a 1 KB target is reachable and achieved. -/
theorem compress_meets_reachable_target_witness :
    ((compressToTargetSize (fun _ => 100) 1).sizeKB : ℚ) ≤ 1 :=
  (compress_meets_reachable_target (fun _ => 100) 1 (fun _ _ _ => le_rfl)).1
    ⟨1/20, by norm_num, by norm_num, by norm_num [sizeKB]⟩

/-- Counterexample to C2 as stated: with an encoder whose output is always
3000 KB and a 1 KB target, no search iteration keeps a result, so the
floor fallback performs an 11th encode — the claim's "exactly 10 encode
attempts regardless of the sizes the encoder returns" fails. -/
theorem compress_encode_count_not_always_ten :
    compressEncodeCount (fun _ => 4096000) 1 ≠ 10 := by decide

/-- C2 (amended): the search always performs exactly 10 encode attempts in
its loop; the total is 10 when some iteration's encode meets the target
(every real `toDataURL` string is non-empty, hence `0 < enc q`), and 11 —
the extra floor-quality fallback encode — when none does; in every case at
most 11. -/
theorem compress_encode_count_cases (enc : ℚ → ℕ) (t : ℚ)
    (hpos : ∀ q : ℚ, 0 < enc q) :
    (compressEncodeCount enc t = 10 ↔
      ∃ i, i < 10 ∧ ((sizeKB (enc ((runSearch enc t i).quality)) : ℚ) ≤ t)) ∧
    compressEncodeCount enc t ≤ 11 := by
  have h := runSearch_bestLen_ne_zero_iff enc t hpos 10
  unfold compressEncodeCount
  constructor
  · by_cases hz : (runSearch enc t 10).bestLen = 0
    · rw [if_pos hz]
      constructor
      · omega
      · intro hex
        exact absurd hz (h.mpr hex)
    · rw [if_neg hz]
      exact ⟨fun _ => h.mp hz, fun _ => rfl⟩
  · split <;> omega

/-- Witness for C2 (amended): the constant-length-100 encoder meets a 1 KB
target at the very first iteration, so exactly 10 encodes happen. -/
theorem compress_encode_count_cases_witness :
    compressEncodeCount (fun _ => 100) 1 = 10 :=
  (compress_encode_count_cases (fun _ => 100) 1 (fun _ => by norm_num)).1.mpr
    ⟨0, by norm_num, by norm_num [runSearch, initSearch, sizeKB]⟩

/-- C3 is a code bug: the code computes `sizeKB` as
`Math.ceil(dataUrl.length * 0.75 / 1024)` from the base64 TEXT length
(prefix and padding included), not `ceil(bytes.length / 1024)` from the
binary byte length.  At 1024 encoded bytes the data URL is
23 + 4·⌈1024/3⌉ = 1391 characters, so the code reports 2 KB while the
spec's invariant demands 1 KB. -/
theorem sizeKB_text_length_artifact :
    dataUrlLength 1024 = 1391 ∧
    sizeKB (dataUrlLength 1024) = 2 ∧
    specSizeKB 1024 = 1 := by decide

/-- C10: throughout the quality search, after any number of iterations the
window satisfies `0.05 ≤ minQuality ≤ quality ≤ maxQuality ≤ 1`, with
`minQuality` non-decreasing and `maxQuality` non-increasing from each
iteration to the next; since iteration `i` encodes at
`(runSearch enc t i).quality`, the encoder is never invoked with a quality
outside [0.05, 1.0]. -/
theorem search_quality_window_invariant (enc : ℚ → ℕ) (t : ℚ) (i : ℕ) :
    1/20 ≤ (runSearch enc t i).minQuality ∧
    (runSearch enc t i).minQuality ≤ (runSearch enc t i).quality ∧
    (runSearch enc t i).quality ≤ (runSearch enc t i).maxQuality ∧
    (runSearch enc t i).maxQuality ≤ 1 ∧
    (runSearch enc t i).minQuality ≤ (runSearch enc t (i + 1)).minQuality ∧
    (runSearch enc t (i + 1)).maxQuality ≤ (runSearch enc t i).maxQuality := by
  obtain ⟨h1, h2, h3, h4⟩ := runSearch_bounds_aux enc t i
  exact ⟨h1, h2, h3, h4, searchStep_min_le enc t h2, searchStep_max_ge enc t h3⟩

end ImageResizerApp

namespace ImageResizerApp

theorem rotateImage_loaded_fields {s : AppState} (hl : s.loaded = true) :
    (rotateImage s).1.loaded = true ∧ (rotateImage s).1.imgW = s.imgW ∧
    (rotateImage s).1.imgH = s.imgH ∧
    (rotateImage s).1.rotationAngle = (s.rotationAngle + 90) % 360 := by
  unfold rotateImage
  rw [if_neg (by simp [hl])]
  exact ⟨hl, rfl, rfl, rfl⟩

theorem rotateImage_canvas {s : AppState} (hl : s.loaded = true) :
    (rotateImage s).1.canvasW =
      ((if ((s.rotationAngle + 90) % 360) % 180 = 0 then s.imgW else s.imgH : ℕ) : ℤ) ∧
    (rotateImage s).1.canvasH =
      ((if ((s.rotationAngle + 90) % 360) % 180 = 0 then s.imgH else s.imgW : ℕ) : ℤ) := by
  unfold rotateImage
  rw [if_neg (by simp [hl])]
  exact ⟨rfl, rfl⟩

theorem rotateN_state (s : AppState) (hl : s.loaded = true) (ha : s.rotationAngle = 0) :
    ∀ n, (rotateN n s).loaded = true ∧ (rotateN n s).imgW = s.imgW ∧
      (rotateN n s).imgH = s.imgH ∧ (rotateN n s).rotationAngle = (90 * n) % 360
  | 0 => ⟨hl, rfl, rfl, by simpa using ha⟩
  | n + 1 => by
    obtain ⟨ih1, ih2, ih3, ih4⟩ := rotateN_state s hl ha n
    obtain ⟨g1, g2, g3, g4⟩ := rotateImage_loaded_fields ih1
    refine ⟨g1, ?_, ?_, ?_⟩
    · show (rotateImage (rotateN n s)).1.imgW = s.imgW
      rw [g2, ih2]
    · show (rotateImage (rotateN n s)).1.imgH = s.imgH
      rw [g3, ih3]
    show (rotateImage (rotateN n s)).1.rotationAngle = (90 * (n + 1)) % 360
    rw [g4, ih4]
    omega

end ImageResizerApp

namespace ImageResizerApp

/-- C5: loading resets the cumulative angle to 0; after `n ≥ 1` consecutive
rotates of a loaded `w × h` image the angle is `(90·n) % 360`, and the
output canvas — always derived from the original image's dimensions, which
the rotation never mutates — is `(w, h)` when that angle is 0 or 180 and
`(h, w)` when it is 90 or 270. -/
theorem rotate_cumulative_angle_dims (s : AppState) (w h : ℕ) (n : ℕ) (hn : 1 ≤ n) :
    (loadImage s w h).rotationAngle = 0 ∧
    (rotateN n (loadImage s w h)).imgW = w ∧
    (rotateN n (loadImage s w h)).imgH = h ∧
    (rotateN n (loadImage s w h)).rotationAngle = (90 * n) % 360 ∧
    ((90 * n) % 360 = 0 ∨ (90 * n) % 360 = 180 →
      (rotateN n (loadImage s w h)).canvasW = (w : ℤ) ∧
      (rotateN n (loadImage s w h)).canvasH = (h : ℤ)) ∧
    ((90 * n) % 360 = 90 ∨ (90 * n) % 360 = 270 →
      (rotateN n (loadImage s w h)).canvasW = (h : ℤ) ∧
      (rotateN n (loadImage s w h)).canvasH = (w : ℤ)) := by
  obtain ⟨m, rfl⟩ : ∃ m, n = m + 1 := ⟨n - 1, by omega⟩
  obtain ⟨jh1, jh2, jh3, jh4⟩ := rotateN_state (loadImage s w h) rfl rfl (m + 1)
  obtain ⟨ih1, ih2, ih3, ih4⟩ := rotateN_state (loadImage s w h) rfl rfl m
  obtain ⟨c1, c2⟩ := rotateImage_canvas ih1
  rw [ih2, ih3, ih4] at c1 c2
  refine ⟨rfl, jh2, jh3, jh4, ?_, ?_⟩
  · intro hcase
    have hcond : ((90 * m % 360 + 90) % 360) % 180 = 0 := by omega
    rw [if_pos hcond] at c1 c2
    exact ⟨c1, c2⟩
  · intro hcase
    have hcond : ¬ (((90 * m % 360 + 90) % 360) % 180 = 0) := by omega
    rw [if_neg hcond] at c1 c2
    exact ⟨c1, c2⟩

/-- Witness for C5 at `n = 1` on an 8×6 image: one rotate yields angle 90
and swapped 6×8 canvas dimensions. -/
theorem rotate_cumulative_angle_dims_witness :
    (rotateN 1 (loadImage initialState 8 6)).rotationAngle = (90 * 1) % 360 ∧
    (rotateN 1 (loadImage initialState 8 6)).canvasW = ((6 : ℕ) : ℤ) ∧
    (rotateN 1 (loadImage initialState 8 6)).canvasH = ((8 : ℕ) : ℤ) :=
  ⟨(rotate_cumulative_angle_dims initialState 8 6 1 le_rfl).2.2.2.1,
   ((rotate_cumulative_angle_dims initialState 8 6 1 le_rfl).2.2.2.2.2 (by norm_num)).1,
   ((rotate_cumulative_angle_dims initialState 8 6 1 le_rfl).2.2.2.2.2 (by norm_num)).2⟩

end ImageResizerApp

namespace ImageResizerApp

/-- A loaded 8×6 image whose width field reads `-5`: `parseInt` yields a
negative number, which is truthy in JS, so `!width || !height` does not
reject it. -/
def negativeWidthState : AppState :=
  { loaded := true, imgW := 8, imgH := 6, rotationAngle := 0, aspectRatio := 4/3,
    widthInput := some (-5), heightInput := some 100, canvasW := 8, canvasH := 6 }

/-- Counterexample to C4 as stated: a resize with width field `-5` (a
parseable NEGATIVE integer, hence not a positive one) is NOT rejected with
`InvalidInput` — the guard `!width || !height` only catches `NaN` and `0`,
so the operation proceeds and produces a buffer. -/
theorem resize_negative_width_not_rejected :
    (resizeImage (fun _ => 100) none SizeUnit.KB negativeWidthState).2 ≠
      Except.error AppError.invalidInput := by
  intro hcontra
  have heval : (resizeImage (fun _ => 100) none SizeUnit.KB negativeWidthState).2 =
      Except.ok (⟨-5, 100⟩, singleEncode (fun _ => 100) (9/10)) := rfl
  rw [heval] at hcontra
  exact Except.noConfusion hcontra

/-- C4 (amended): for a loaded image, a resize whose width or height field
fails to parse (`NaN`) or parses to `0` fails with `InvalidInput`,
produces no output buffer, and leaves the whole retained state unchanged;
a negative parsed value, however, is not rejected. -/
theorem resize_invalid_input_rejected (enc : ℚ → ℕ) (ti : Option ℚ) (u : SizeUnit)
    (s : AppState) (hl : s.loaded = true)
    (hbad : s.widthInput = none ∨ s.widthInput = some 0 ∨
            s.heightInput = none ∨ s.heightInput = some 0) :
    resizeImage enc ti u s = (s, Except.error AppError.invalidInput) := by
  have hc : (truthyInt s.widthInput && truthyInt s.heightInput) = false := by
    rcases hbad with hb | hb | hb | hb <;> simp [truthyInt, hb]
  unfold resizeImage
  rw [if_neg (by simp [hl]), if_pos hc]

/-- A loaded 8×6 image whose width field reads `0`. -/
def zeroWidthState : AppState :=
  { loaded := true, imgW := 8, imgH := 6, rotationAngle := 0, aspectRatio := 4/3,
    widthInput := some 0, heightInput := some 100, canvasW := 8, canvasH := 6 }

/-- Witness for C4 (amended): width field `0` is rejected with
`InvalidInput` and the state is returned unchanged. -/
theorem resize_invalid_input_rejected_witness :
    resizeImage (fun _ => 100) none SizeUnit.KB zeroWidthState =
      (zeroWidthState, Except.error AppError.invalidInput) :=
  resize_invalid_input_rejected (fun _ => 100) none SizeUnit.KB zeroWidthState rfl
    (Or.inr (Or.inl rfl))

/-- C6: for a loaded image, `cropSquare` outputs a buffer with
`width = height = min(source.width, source.height)`, cropped at the
centered offsets `sx = (width − size)/2`, `sy = (height − size)/2`. -/
theorem crop_square_centered (s : AppState) (hl : s.loaded = true) :
    (cropSquare s).2 = Except.ok
      (⟨((min s.imgW s.imgH : ℕ) : ℤ), ((min s.imgW s.imgH : ℕ) : ℤ)⟩,
       ((s.imgW : ℚ) - ((min s.imgW s.imgH : ℕ) : ℚ)) / 2,
       ((s.imgH : ℚ) - ((min s.imgW s.imgH : ℕ) : ℚ)) / 2) ∧
    (cropSquare s).1.canvasW = (cropSquare s).1.canvasH := by
  unfold cropSquare
  rw [if_neg (by simp [hl])]
  exact ⟨rfl, rfl⟩

/-- Witness for C6 on an 8×6 image: a 6×6 buffer cropped at offsets
`sx = 1`, `sy = 0`. -/
theorem crop_square_centered_witness :
    (cropSquare (loadImage initialState 8 6)).2 = Except.ok
      (⟨((min 8 6 : ℕ) : ℤ), ((min 8 6 : ℕ) : ℤ)⟩,
       (((8 : ℕ) : ℚ) - ((min 8 6 : ℕ) : ℚ)) / 2,
       (((6 : ℕ) : ℚ) - ((min 8 6 : ℕ) : ℚ)) / 2) ∧
    (cropSquare (loadImage initialState 8 6)).1.canvasW =
      (cropSquare (loadImage initialState 8 6)).1.canvasH :=
  crop_square_centered (loadImage initialState 8 6) rfl

/-- C7: when the target field is `NaN` or its unit-normalized value
(MB → KB via ×1024) is ≤ 0, the pipeline performs exactly one encode, at
the fixed quality 0.9, and returns that result — no search iterations. -/
theorem no_target_single_encode (enc : ℚ → ℕ) (v : Option ℚ) (u : SizeUnit)
    (h : v = none ∨ ∃ t, v = some t ∧ t ≤ 0) :
    generateOptimizedImage enc (normalizeTarget v u) = (singleEncode enc (9/10), 1) ∧
    (generateOptimizedImage enc (normalizeTarget v u)).1.quality = 9/10 := by
  have hres : ∀ t' : ℚ, ¬ (0 < t') →
      generateOptimizedImage enc (some t') = (singleEncode enc (9/10), 1) := by
    intro t' ht'
    unfold generateOptimizedImage
    dsimp only
    rw [if_neg ht']
  rcases h with rfl | ⟨t, rfl, ht⟩
  · exact ⟨rfl, rfl⟩
  · cases u
    · rw [show normalizeTarget (some t) SizeUnit.KB = some t from rfl,
        hres t (not_lt.mpr ht)]
      exact ⟨rfl, rfl⟩
    · rw [show normalizeTarget (some t) SizeUnit.MB = some (t * 1024) from rfl,
        hres (t * 1024) (not_lt.mpr (by linarith))]
      exact ⟨rfl, rfl⟩

/-- Witness for C7: target `-1 MB` normalizes to `-1024 KB ≤ 0`, giving the
single fixed-quality encode. -/
theorem no_target_single_encode_witness :
    generateOptimizedImage (fun _ => 100) (normalizeTarget (some (-1)) SizeUnit.MB) =
      (singleEncode (fun _ => 100) (9/10), 1) :=
  (no_target_single_encode (fun _ => 100) (some (-1)) SizeUnit.MB
    (Or.inr ⟨-1, rfl, by norm_num⟩)).1

/-- C8: for a loaded image and positive parsed width and height, resize
succeeds and the output buffer / canvas have exactly those dimensions. -/
theorem resize_exact_geometry (enc : ℚ → ℕ) (ti : Option ℚ) (u : SizeUnit)
    (s : AppState) (w h : ℤ) (hl : s.loaded = true)
    (hw : s.widthInput = some w) (hh : s.heightInput = some h)
    (hwp : 0 < w) (hhp : 0 < h) :
    (resizeImage enc ti u s).1.canvasW = w ∧
    (resizeImage enc ti u s).1.canvasH = h ∧
    (resizeImage enc ti u s).2 =
      Except.ok (⟨w, h⟩, (generateOptimizedImage enc (normalizeTarget ti u)).1) := by
  have hc : ¬ ((truthyInt s.widthInput && truthyInt s.heightInput) = false) := by
    rw [hw, hh]
    simp [truthyInt]
    omega
  unfold resizeImage
  rw [if_neg (by simp [hl]), if_neg hc]
  rw [hw, hh]
  exact ⟨rfl, rfl, rfl⟩

/-- Witness for C8: resizing a loaded 8×6 image with its prefilled positive
fields 8 and 6 yields an 8×6 canvas. -/
theorem resize_exact_geometry_witness :
    (resizeImage (fun _ => 100) none SizeUnit.KB (loadImage initialState 8 6)).1.canvasW = 8 ∧
    (resizeImage (fun _ => 100) none SizeUnit.KB (loadImage initialState 8 6)).1.canvasH = 6 :=
  ⟨(resize_exact_geometry (fun _ => 100) none SizeUnit.KB (loadImage initialState 8 6)
      8 6 rfl rfl rfl (by norm_num) (by norm_num)).1,
   (resize_exact_geometry (fun _ => 100) none SizeUnit.KB (loadImage initialState 8 6)
      8 6 rfl rfl rfl (by norm_num) (by norm_num)).2.1⟩

/-- C9: every transform invoked with no loaded source image fails with
`NoImageLoaded` and returns the state COMPLETELY unchanged — the checks
run before any processing, so partial application is never observable. -/
theorem unloaded_transforms_rejected (enc : ℚ → ℕ) (ti : Option ℚ) (u : SizeUnit)
    (s : AppState) (hl : s.loaded = false) :
    resizeImage enc ti u s = (s, Except.error AppError.noImageLoaded) ∧
    rotateImage s = (s, Except.error AppError.noImageLoaded) ∧
    cropSquare s = (s, Except.error AppError.noImageLoaded) := by
  refine ⟨?_, ?_, ?_⟩
  · unfold resizeImage
    rw [if_pos hl]
  · unfold rotateImage
    rw [if_pos hl]
  · unfold cropSquare
    rw [if_pos hl]

/-- Witness for C9 at the fresh (unloaded) state. -/
theorem unloaded_transforms_rejected_witness :
    rotateImage initialState = (initialState, Except.error AppError.noImageLoaded) ∧
    cropSquare initialState = (initialState, Except.error AppError.noImageLoaded) :=
  ⟨(unloaded_transforms_rejected (fun _ => 100) none SizeUnit.KB initialState rfl).2.1,
   (unloaded_transforms_rejected (fun _ => 100) none SizeUnit.KB initialState rfl).2.2⟩

end ImageResizerApp
